import Mathlib

/-
  Verification of the deep-dive research-job core of crowe-newsletter.

  Shallow embedding of the TypeScript sources:
    src/services/deepDive/orchestrator.ts   (deepDiveStep)
    src/services/deepDive/discover.ts       (discoverCandidates, fetchAndExtractBatch,
                                             fetchSingleSource)
    src/services/deepDive/publish.ts        (publishReport, validateReport)
    src/services/email/sender.ts            (synthesizeReport, createMinimalReport)
    lib/utils.ts                            (truncateText)
    jobs (scheduleDeepDives), types (fromJson)

  Database rows are modelled as explicit record state; external effects
  (network fetches, generation-service calls, points at which a database
  call may throw) are modelled as environment parameters supplied to each
  step, so one invocation of a stage is a pure function of the persisted
  row and the environment.
-/

namespace CroweDD

/-- The four stages of the deep dive state machine, as in DeepDiveState.stage. -/
inductive Stage where
  | DISCOVER
  | FETCH
  | SYNTHESIZE
  | PUBLISH
deriving DecidableEq, Repr

/-- Numeric order of stages: DISCOVER < FETCH < SYNTHESIZE < PUBLISH. -/
def Stage.rank : Stage → Nat
  | .DISCOVER => 0
  | .FETCH => 1
  | .SYNTHESIZE => 2
  | .PUBLISH => 3

/-- Job statuses. The source string "partial" is rendered here as partialS
(the word itself is a Lean keyword-like token). -/
inductive Status where
  | queued
  | running
  | partialS
  | complete
  | failed
  | aborted
deriving DecidableEq, Repr

/-- The hard-terminal statuses tested by the orchestrator:
["complete", "aborted", "failed"].includes(job.status). -/
def Status.isHardTerminal : Status → Bool
  | .complete => true
  | .aborted => true
  | .failed => true
  | _ => false

/-- Synthesis strategy names: "deep-research" and "map-reduce". -/
inductive Strategy where
  | deepResearch
  | mapReduce
deriving DecidableEq, Repr

/-- state.fetch counters as written by discover.ts and fetchExtract.ts. -/
structure FetchCtrs where
  totalSources : Nat
  fetchedCount : Nat
  okCount : Nat
  nextIndex : Nat
deriving DecidableEq, Repr

/-- state.synthesis. partialMarkdown is abstracted to its presence
(hasMarkdown; the JS truthiness test "!markdown" in publishReport). -/
structure SynthState where
  strategy : Strategy
  retryCount : Nat
  hasMarkdown : Bool
deriving DecidableEq, Repr

/-- One deepDiveJob row: status and attempt columns, the persisted state
document (stage, fetch counters, synthesis), and whether a
deepDiveReport row exists for this job (job.report in publishReport). -/
structure JobRow where
  status : Status
  attempt : Nat
  stage : Stage
  fetch : Option FetchCtrs
  synthesis : Option SynthState
  hasReport : Bool
deriving DecidableEq, Repr

/-- The store for one job, plus a running count of deepDiveReport row
creations (prisma.deepDiveReport.create calls that executed). -/
structure Sys where
  job : Option JobRow
  created : Nat
deriving DecidableEq, Repr

/-- Where, if anywhere, an invocation of a stage throws. Database writes
already performed before the throw point remain in place. -/
inductive ThrowPoint where
  | noThrow
  | before
  | mid
  | after
deriving DecidableEq, Repr

/-- Branch taken by discoverCandidates, determined by the database
contents: the topic interest row may be missing, the filtered candidate
list may be empty, or candidates exist. -/
inductive DiscoverBranch where
  | interestMissing
  | noCandidates
  | candidates (selectedCount : Nat)
deriving DecidableEq, Repr

/-- discoverCandidates: on a missing interest write status failed with a
fresh DISCOVER state document; with zero surviving candidates write
status partial and a SYNTHESIZE state; otherwise write a FETCH state
with zeroed counters. Each branch performs one state write; the
environment chooses whether the invocation throws before or after it. -/
def discoverRun (j : JobRow) (b : DiscoverBranch) (t : ThrowPoint) : JobRow × Bool :=
  let w : JobRow :=
    match b with
    | .interestMissing =>
        { j with status := .failed, stage := .DISCOVER, fetch := none, synthesis := none }
    | .noCandidates =>
        { j with status := .partialS, stage := .SYNTHESIZE, fetch := none, synthesis := none }
    | .candidates n =>
        { j with stage := .FETCH, fetch := some ⟨n, 0, 0, 0⟩, synthesis := none }
  match t with
  | .before => (j, true)
  | .mid => (j, true)
  | .after => (w, true)
  | .noThrow => (w, false)

/-- The post-batch transition decision of fetchAndExtractBatch, written
as the new state document (the partial branches also update the status
column). okCount and fetchedCount are the running counters after the
batch; remainingUnfetched is the count of sources still unknown. -/
def fetchDecision (j : JobRow) (okCount fetchedCount remainingUnfetched : Nat) : JobRow :=
  let total := (j.fetch.map (·.totalSources)).getD 0
  if 4 ≤ okCount then
    { j with stage := .SYNTHESIZE, fetch := some ⟨total, fetchedCount, okCount, 0⟩,
             synthesis := some ⟨.deepResearch, 0, false⟩ }
  else if 0 < remainingUnfetched then
    { j with stage := .FETCH, fetch := some ⟨total, fetchedCount, okCount, fetchedCount⟩,
             synthesis := none }
  else if 2 ≤ okCount then
    { j with status := .partialS, stage := .SYNTHESIZE,
             fetch := some ⟨total, fetchedCount, okCount, 0⟩,
             synthesis := some ⟨.deepResearch, 0, false⟩ }
  else
    { j with status := .partialS, stage := .SYNTHESIZE,
             fetch := some ⟨total, fetchedCount, okCount, 0⟩,
             synthesis := some ⟨.mapReduce, 0, false⟩ }

/-- Environment of one fetchAndExtractBatch invocation: the ok/not-ok
outcome of each source processed in this batch (network failures are
caught and recorded as blocked, hence not ok), and how many sources
remain unknown afterwards. -/
structure FetchEnv where
  batchOk : List Bool
  remainingUnfetched : Nat
  throwAt : ThrowPoint
deriving DecidableEq, Repr

/-- fetchAndExtractBatch on the job row: accumulate counters over the
batch, then apply the transition decision. A throw at mid leaves the
status update of the partial branches applied but not the state write. -/
def fetchRun (j : JobRow) (e : FetchEnv) : JobRow × Bool :=
  let okCount := (j.fetch.map (·.okCount)).getD 0 + e.batchOk.count true
  let fetchedCount := (j.fetch.map (·.fetchedCount)).getD 0 + e.batchOk.length
  let w := fetchDecision j okCount fetchedCount e.remainingUnfetched
  match e.throwAt with
  | .before => (j, true)
  | .mid => ({ j with status := w.status }, true)
  | .after => (w, true)
  | .noThrow => (w, false)

/-- Environment of one synthesizeReport invocation: the number of ok
sources with extracted text found in the database, the validation
verdict of the first candidate report, whether budget remains for the
one-shot retry, and whether the retried direct call produced output that
independently validated. -/
structure SynthEnv where
  okSources : Nat
  firstValid : Bool
  budgetForRetry : Bool
  retryProduced : Bool
  retryValid : Bool
  throwAt : ThrowPoint
deriving DecidableEq, Repr

/-- How many generation-service calls a synthesizeReport invocation can
make, as a function of the branch taken: the zero-source path creates
the minimal report without any model call; otherwise the count depends
on strategy and environment and is abstracted. -/
def synthesizeModelCalls (e : SynthEnv) (nonZeroCalls : Nat) : Nat :=
  if e.okSources = 0 then 0 else nonZeroCalls

/-- synthesizeReport on the job row. Zero ok sources: createMinimalReport
writes status partial, stage PUBLISH, synthesis map-reduce with the
fixed markdown. Otherwise: generate, validate, maybe write the interim
retry state (stage SYNTHESIZE, retryCount 1, no markdown yet), and
finally write stage PUBLISH with markdown always present (the template
fallback never fails), status partial unless the first candidate
validated. The final write stores the retryCount variable read at entry,
not the incremented one. -/
def synthesizeRun (j : JobRow) (e : SynthEnv) : JobRow × Bool :=
  if e.okSources = 0 then
    let w : JobRow :=
      { j with status := .partialS, stage := .PUBLISH,
               synthesis := some ⟨.mapReduce, 0, true⟩ }
    match e.throwAt with
    | .before => (j, true)
    | .mid => (j, true)
    | .after => (w, true)
    | .noThrow => (w, false)
  else
    let strategy := (j.synthesis.map (·.strategy)).getD .deepResearch
    let retryCount := (j.synthesis.map (·.retryCount)).getD 0
    let retried := !e.firstValid && retryCount = 0 && e.budgetForRetry
    let interim : JobRow :=
      { j with stage := .SYNTHESIZE, synthesis := some ⟨strategy, 1, false⟩ }
    let final : JobRow :=
      { j with stage := .PUBLISH,
               status := if e.firstValid then j.status else .partialS,
               synthesis := some ⟨strategy, retryCount, true⟩ }
    match e.throwAt with
    | .before => (j, true)
    | .mid => (if retried then interim else j, true)
    | .after => (final, true)
    | .noThrow => (final, false)

/-- Throw points inside publishReport that matter to the report count:
none, before any write, or after the deepDiveReport row was created but
before the final job update. -/
inductive PubThrow where
  | noThrow
  | before
  | afterCreate
deriving DecidableEq, Repr

/-- Whether state.synthesis.partialMarkdown is present and truthy. -/
def JobRow.hasMarkdown (j : JobRow) : Bool :=
  match j.synthesis with
  | some s => s.hasMarkdown
  | none => false

/-- publishReport: if a report row already exists, force status complete
and return without creating anything; if no markdown is in state, set
status failed and return; otherwise create the report row (counted) and
finish with status partial when the job entered with status partial,
else complete. Email delivery failure is swallowed and does not appear
here. -/
def publishRun (j : JobRow) (created : Nat) (t : PubThrow) : JobRow × Nat × Bool :=
  if t = .before then (j, created, true)
  else if j.hasReport then ({ j with status := .complete }, created, false)
  else if !j.hasMarkdown then ({ j with status := .failed }, created, false)
  else
    let j1 : JobRow := { j with hasReport := true }
    if t = .afterCreate then (j1, created + 1, true)
    else
      (({ j1 with status := if j.status = .partialS then .partialS else .complete }),
       created + 1, false)

/-- MAX_ATTEMPTS in orchestrator.ts. -/
def MAX_ATTEMPTS : Nat := 3

/-- The attempt/status update the orchestrator performs before
dispatching: increment attempt, set status running. -/
def runningRow (j : JobRow) : JobRow :=
  { j with attempt := j.attempt + 1, status := .running }

/-- The forced transition written by the abort path: status partial,
stage PUBLISH, synthesizing a default map-reduce strategy marker when
none exists. -/
def forcePublishRow (j1 : JobRow) : JobRow :=
  { j1 with status := .partialS, stage := .PUBLISH,
            synthesis := some (j1.synthesis.getD ⟨.mapReduce, 0, false⟩) }

/-- Environment of one deepDiveStep invocation: the branch data of
whichever stage gets dispatched, and the throw behaviour of the forced
publish in the abort path. -/
structure StepEnv where
  dBranch : DiscoverBranch
  dThrow : ThrowPoint
  fEnv : FetchEnv
  sEnv : SynthEnv
  pThrow : PubThrow
  forcedPubThrow : PubThrow
deriving DecidableEq, Repr

/-- Dispatch of deepDiveStep by state.stage. Returns the job row as left
by the dispatched stage, the updated creation count, and whether the
stage threw. -/
def dispatchRun (j : JobRow) (created : Nat) (e : StepEnv) : JobRow × Nat × Bool :=
  match j.stage with
  | .DISCOVER => ((discoverRun j e.dBranch e.dThrow).1, created, (discoverRun j e.dBranch e.dThrow).2)
  | .FETCH => ((fetchRun j e.fEnv).1, created, (fetchRun j e.fEnv).2)
  | .SYNTHESIZE => ((synthesizeRun j e.sEnv).1, created, (synthesizeRun j e.sEnv).2)
  | .PUBLISH => publishRun j created e.pThrow

/-- deepDiveStep: no-op on a missing or hard-terminal job; otherwise
increment attempt, set status running, dispatch by stage; on a thrown
failure at attempt ceiling, re-read the row and, only when its stage is
not already PUBLISH, force status partial and stage PUBLISH
(synthesizing a default map-reduce strategy marker if none exists) and
invoke publishReport, downgrading to failed if that publish throws too;
below the ceiling, reset status to queued. -/
def deepDiveStep (sys : Sys) (e : StepEnv) : Sys :=
  match sys.job with
  | none => sys
  | some job =>
    if job.status.isHardTerminal then sys
    else
      let d := dispatchRun (runningRow job) sys.created e
      if !d.2.2 then { job := some d.1, created := d.2.1 }
      else if MAX_ATTEMPTS ≤ job.attempt + 1 then
        if d.1.stage ≠ .PUBLISH then
          let p := publishRun (forcePublishRow d.1) d.2.1 e.forcedPubThrow
          if p.2.2 then { job := some { p.1 with status := .failed }, created := p.2.1 }
          else { job := some p.1, created := p.2.1 }
        else { job := some d.1, created := d.2.1 }
      else { job := some { d.1 with status := .queued }, created := d.2.1 }

/-
  String utilities shared by the extractor and the validator. JS strings
  are modelled as Lean strings; toLowerCase is modelled as per-character
  ASCII lowering, which agrees with JS on all the ASCII constants used
  by this code.
-/

/-- Model of String.prototype.toLowerCase restricted to ASCII, as a map
over the character list. -/
def asciiLower (s : String) : String := ⟨s.data.map Char.toLower⟩

/-- The whitespace characters relevant to the trims performed by this
code (JS String.prototype.trim also strips rarer Unicode spaces, which
never occur in these inputs). -/
def isJsWhitespace (c : Char) : Bool := c = ' ' || c = '\t' || c = '\n' || c = '\r'

/-- Model of String.prototype.trim on a character list. -/
def trimChars (l : List Char) : List Char :=
  ((l.dropWhile isJsWhitespace).reverse.dropWhile isJsWhitespace).reverse

/-- Substring test on character lists (JS String.prototype.includes). -/
def containsList (hay needle : List Char) : Bool :=
  match hay with
  | [] => needle.isEmpty
  | _ :: t => needle.isPrefixOf hay || containsList t needle

/-- Substring test on strings (JS String.prototype.includes). -/
def containsStr (hay needle : String) : Bool := containsList hay.data needle.data

/-- Index of the last occurrence of a character (JS lastIndexOf; the JS
result -1 is rendered as none). -/
def lastIdxOf (c : Char) : List Char → Option Nat
  | [] => none
  | a :: as =>
    match lastIdxOf c as with
    | some i => some (i + 1)
    | none => if a = c then some 0 else none

/-- truncateText from lib/utils.ts: return the text unchanged when it
fits; otherwise cut to maxLength and, when the last space of the cut
lies strictly past 80 percent of maxLength, drop everything from that
space on. The JS comparison is lastSpace > maxLength * 0.8 in doubles;
at the single call site cap 20000 the product rounds to exactly 16000,
so the integer comparison maxLength * 4 < i * 5 coincides with it. -/
def truncateText (text : String) (maxLength : Nat) : String :=
  if text.length ≤ maxLength then text
  else
    let truncated := text.data.take maxLength
    match lastIdxOf ' ' truncated with
    | some i => if maxLength * 4 < i * 5 then ⟨truncated.take i⟩ else ⟨truncated⟩
    | none => ⟨truncated⟩

/-- MAX_EXTRACTED_TEXT in fetchExtract.ts. -/
def MAX_EXTRACTED_TEXT : Nat := 20000

/-- MIN_READABLE_CHARS in fetchExtract.ts. -/
def MIN_READABLE_CHARS : Nat := 1200

/-- The text stored on the Source row by fetchAndExtractBatch:
truncateText(result.text, MAX_EXTRACTED_TEXT). -/
def storedExtractedText (t : String) : String := truncateText t MAX_EXTRACTED_TEXT

/-- Whether the original text has a space right after the cut, i.e. the
truncation ended exactly at a word boundary of the original. -/
def endsAtSpaceBoundary (orig res : String) : Bool :=
  orig.data[res.length]? == some ' '

/-- PAYWALL_MARKERS in fetchExtract.ts. -/
def PAYWALL_MARKERS : List String :=
  ["subscribe to continue", "sign in to read", "sign in to continue",
   "metered paywall", "create a free account", "start your free trial",
   "subscribe for full access", "premium content", "members only",
   "you have reached your limit"]

/-- PAYWALL_URL_PATTERNS in fetchExtract.ts. -/
def PAYWALL_URL_PATTERNS : List String :=
  ["/subscribe", "/login", "/paywall", "/register", "/signin", "/sign-in"]

/-- Access classification of a fetched source. -/
inductive AccessStatus where
  | ok
  | paywalled
  | blocked
deriving DecidableEq, Repr

/-- One fetched document as fetchSingleSource observes it: the HTTP
status, the post-redirect URL, the raw HTML body, the text extracted by
the first matching content selector (empty when none matched; the
cheerio extraction itself is abstracted to this input), and the
whole-body fallback text. -/
structure FetchDoc where
  status : Nat
  finalUrl : String
  htmlBody : String
  mainText : String
  bodyText : String
  title : Option String
  sourceName : Option String
deriving DecidableEq, Repr

/-- The outcome record of fetchSingleSource. -/
structure FetchOutcome where
  status : AccessStatus
  text : Option String
  title : Option String
  sourceName : Option String
deriving DecidableEq, Repr

/-- fetchSingleSource from fetchExtract.ts: 401/403 are paywalled; any
other non-success response is blocked; then the final URL is checked
against paywall path fragments and the lowered body against paywall
marker phrases (both paywalled); then the selector text, or the
whole-body text when the selector text is below the readable minimum,
must reach MIN_READABLE_CHARS or the source is blocked; otherwise ok.
A thrown network or parse error is caught by the callers and recorded
as blocked, so it does not appear here. -/
def fetchSingleSource (d : FetchDoc) : FetchOutcome :=
  if d.status = 401 || d.status = 403 then ⟨.paywalled, none, none, none⟩
  else if !(200 ≤ d.status && d.status ≤ 299) then ⟨.blocked, none, none, none⟩
  else if PAYWALL_URL_PATTERNS.any (fun p => containsStr d.finalUrl p) then
    ⟨.paywalled, none, none, none⟩
  else if PAYWALL_MARKERS.any (fun m => containsStr (asciiLower d.htmlBody) m) then
    ⟨.paywalled, none, none, none⟩
  else
    let text := if d.mainText.length < MIN_READABLE_CHARS then d.bodyText else d.mainText
    if text.length < MIN_READABLE_CHARS then ⟨.blocked, none, d.title, none⟩
    else ⟨.ok, some text, d.title, d.sourceName⟩

/-
  The report validator (publish.ts / validators).
-/

/-- One parsed source citation of a report. -/
structure SourceCitation where
  title : String
  url : String
  source : String
  date : Option String
deriving DecidableEq, Repr

/-- DeepDiveReportData from types. -/
structure DeepDiveReportData where
  headline : String
  whatHappened : List String
  whatChanged : List String
  whyItMatters : List String
  risks : List String
  actionPrompts : List String
  sources : List SourceCitation
deriving DecidableEq, Repr

/-- ValidationResult from types. -/
structure ValidationResult where
  valid : Bool
  errors : List String
deriving DecidableEq, Repr

/-- BANNED_PHRASES from validators. -/
def BANNED_PHRASES : List String :=
  ["fast-changing landscape", "rapidly evolving", "paradigm shift",
   "paradigm-shifting", "leveraging", "it is important to note",
   "it's important to note", "this article", "the piece", "the post",
   "in conclusion", "in today's", "game-changer", "game changer",
   "cutting-edge", "cutting edge", "at the end of the day",
   "moving forward", "going forward", "synergy", "synergies",
   "holistic approach", "best-in-class", "thought leader", "disruptive",
   "unprecedented times"]

/-- serializeReport from validators: headline, every bullet of every
section and every source title joined with single spaces. -/
def serializeReport (r : DeepDiveReportData) : String :=
  String.intercalate " "
    ([r.headline] ++ r.whatHappened ++ r.whatChanged ++ r.whyItMatters ++ r.risks
      ++ r.actionPrompts ++ r.sources.map (·.title))

/-- The sentence delimiters of the filler-ratio check (the JS split
regex class of period, exclamation mark and question mark). -/
def isSentenceDelim (c : Char) : Bool := c = '.' || c = '!' || c = '?'

/-- validateReport from validators. The named-entity extraction regex is
kept abstract as the extractEntities argument (its output only feeds the
grounding check, which is skipped whenever sourceTexts is empty). The
two JS float ratio comparisons, over 0.3 and over 0.2, are modelled as
the exact rational comparisons ungrounded/entities > 3/10 and
vague/sentences > 1/5. -/
def validateReport (extractEntities : DeepDiveReportData → List String)
    (report : DeepDiveReportData) (sourceTexts : List String) : ValidationResult :=
  let errors :=
    (if (trimChars report.headline.data).length < 5 then
      ["Headline is missing or too short"] else [])
    ++ (if report.whatHappened.isEmpty then ["\"What Happened\" section is empty"] else [])
    ++ (if report.whatHappened.length < 3 || 6 < report.whatHappened.length then
          ["\"What Happened\" must have 3-6 bullets"] else [])
    ++ (if report.whatChanged.isEmpty then ["\"What Changed\" section is empty"] else [])
    ++ (if report.whyItMatters.isEmpty then ["\"Why It Matters\" section is empty"] else [])
    ++ (if report.whyItMatters.length ≠ 3 then
          ["\"Why It Matters\" must have exactly 3 bullets"] else [])
    ++ (if report.risks.isEmpty then ["\"Risks / Watch-outs\" section is empty"] else [])
    ++ (if report.actionPrompts.isEmpty then ["\"Action Prompts\" section is empty"] else [])
    ++ (if report.actionPrompts.length ≠ 3 then
          ["\"Action Prompts\" must have exactly 3 bullets"] else [])
    ++ (if report.sources.isEmpty then ["\"Sources\" section is empty"] else [])
  let fullText := asciiLower (serializeReport report)
  let errors := errors ++
    (BANNED_PHRASES.filter (fun p => containsStr fullText (asciiLower p))).map
      (fun p => "Contains banned filler phrase: " ++ p)
  let exclamationCount := fullText.data.count '!'
  let errors := errors ++
    (if 1 < exclamationCount then ["Too many exclamation marks"] else [])
  let errors := errors ++
    (if 0 < sourceTexts.length then
      let entities := extractEntities report
      let combined := asciiLower (String.intercalate " " sourceTexts)
      let ungrounded := entities.filter (fun en => !containsStr combined (asciiLower en))
      if 0 < entities.length && entities.length * 3 < ungrounded.length * 10 then
        ["Too many ungrounded entities"]
      else []
    else [])
  let sentences := (fullText.data.splitOnP isSentenceDelim).filter
      (fun s => 10 < (trimChars s).length)
  let vagueCount := (sentences.filter (fun s =>
      BANNED_PHRASES.any (fun p => containsList s (asciiLower p).data))).length
  let errors := errors ++
    (if 0 < sentences.length && sentences.length < vagueCount * 5 then
      [">20% of sentences contain vague filler"] else [])
  { valid := errors.isEmpty, errors := errors }

/-
  Synthesis: the validation / one-shot retry control flow, and the
  zero-source minimal report.
-/

/-- Result of the synthesize validation gate: the markdown kept for
state.synthesis.partialMarkdown, the final status written with it, and
how many stricter direct retry calls were made. -/
structure SynthControlOut (α : Type) where
  kept : α
  status : Status
  strictRetries : Nat
deriving DecidableEq, Repr

/-- The validation gate of synthesizeReport (lines after the candidate
markdown exists), generic in the candidate type and validity predicate:
if the first candidate is invalid and this is the first attempt and
budget remains, retry exactly once with the stricter direct strategy;
the retry output (none when the call produced nothing) replaces the
original only when it independently validates; the status written by
the final update is the previous status when the FIRST validation
passed, else partial. -/
def synthesizeControl {α : Type} (valid : α → Bool) (first : α) (retryOut : Option α)
    (retryCount : Nat) (budgetRemains : Bool) (prevStatus : Status) : SynthControlOut α :=
  let v := valid first
  let retried := !v && retryCount = 0 && budgetRemains
  let kept :=
    if retried then
      match retryOut with
      | some r => if valid r then r else first
      | none => first
    else first
  { kept := kept, status := if v then prevStatus else .partialS,
    strictRetries := if retried then 1 else 0 }

/-- The fixed body of the no-coverage report of createMinimalReport,
following its headline. -/
def minimalReportBody : String :=
  "\n\n## What Happened\n- No accessible sources were found for this topic in the past week\n\n## What Changed\n- No meaningful change identified.\n\n## Why It Matters\n- Absence of coverage may indicate a quiet period for this topic\n- Consider broadening search terms or adding related interests\n- Regular monitoring will capture emerging developments\n\n## Risks / Watch-outs\n- Low coverage does not necessarily mean low activity\n- Manual research may be warranted for time-sensitive topics\n\n## Action Prompts\n- Review your deep dive topic settings to ensure they match current priorities\n- Consider adding related interests to broaden coverage\n- Check back next week for updated coverage\n\n## Sources\n- No sources available for this period"

/-- The markdown of createMinimalReport: a headline from the topic label
followed by the fixed body. -/
def minimalReportMarkdown (label : String) : String :=
  "# " ++ label ++ " — " ++ "No Coverage Available" ++ minimalReportBody

/-- createMinimalReport from sender.ts: write status partial and, inside
the state document, stage PUBLISH with synthesis strategy map-reduce,
retryCount 0 and the fixed markdown as partialMarkdown. Returns the row
and the markdown stored in it. -/
def createMinimalReport (j : JobRow) (label : String) : JobRow × String :=
  ({ j with status := .partialS, stage := .PUBLISH,
            synthesis := some ⟨.mapReduce, 0, true⟩ },
   minimalReportMarkdown label)

/-
  The scheduler (scheduleDeepDives).
-/

/-- A job key: owning user and runWeek (the Monday of the period). -/
abbrev JobKey := Nat × Nat

/-- One enabled deepDiveConfig row as the scheduler loop sees it:
whether the user has deep dive topics, whether today matches the
configured day of week in the user timezone, and whether
selectTopicForUser found a topic. -/
structure SchedUser where
  uid : Nat
  week : Nat
  hasTopics : Bool
  dueToday : Bool
  topicFound : Bool
deriving DecidableEq, Repr

/-- The loop body of scheduleDeepDives for one config row: skip when the
user has no topics, is not due today, already has a job for (userId,
runWeek) — the findUnique check, with the unique-constraint catch
behaving the same — or no topic was selected; otherwise insert the job
keyed (userId, runWeek). -/
def scheduleUser (db : List JobKey) (u : SchedUser) : List JobKey :=
  if !u.hasTopics then db
  else if !u.dueToday then db
  else if (u.uid, u.week) ∈ db then db
  else if !u.topicFound then db
  else (u.uid, u.week) :: db

/-- scheduleDeepDives: fold the loop body over the enabled configs. -/
def scheduleDeepDives (db : List JobKey) (configs : List SchedUser) : List JobKey :=
  configs.foldl scheduleUser db

/-
  The persisted state document and its decoder (types: toJson/fromJson).
-/

/-- JSON values as stored in the deepDiveJob.state column. -/
inductive Json where
  | null
  | bool (b : Bool)
  | num (n : Int)
  | str (s : String)
  | arr (elems : List Json)
  | obj (fields : List (String × Json))
deriving Repr

/-- Field lookup on a JSON object document. -/
def jsonLookup (j : Json) (key : String) : Option Json :=
  match j with
  | .obj fields => fields.lookup key
  | _ => none

/-- The default document substituted by fromJson. -/
def defaultDeepDiveState : Json := .obj [("stage", .str "DISCOVER")]

/-- fromJson from types: a nullish stored value (column never written,
or JSON null) becomes the default DISCOVER document; any other stored
value is passed through unchanged with no validation and no failure. -/
def fromJson (v : Option Json) : Json :=
  match v with
  | none => defaultDeepDiveState
  | some .null => defaultDeepDiveState
  | some j => j

/-- The stage the orchestrator switch dispatches to for a decoded state
document: some stage for the four recognized stage strings, none for
everything else (the defensive default case, which resets the state to
DISCOVER instead of dispatching). -/
def dispatchTarget (doc : Json) : Option Stage :=
  match jsonLookup doc "stage" with
  | some (.str "DISCOVER") => some .DISCOVER
  | some (.str "FETCH") => some .FETCH
  | some (.str "SYNTHESIZE") => some .SYNTHESIZE
  | some (.str "PUBLISH") => some .PUBLISH
  | _ => none

/-
  Traces over the job store: any interleaving of orchestrator steps and
  standalone publishReport invocations.
-/

/-- One externally triggered operation on the job store. -/
inductive Op where
  | step (e : StepEnv)
  | publish (t : PubThrow)
deriving DecidableEq, Repr

/-- Apply one operation: a step runs deepDiveStep; a standalone publish
runs publishReport on the job if it exists (on a missing job
findUniqueOrThrow throws before any write). -/
def applyOp (sys : Sys) (o : Op) : Sys :=
  match o with
  | .step e => deepDiveStep sys e
  | .publish t =>
    match sys.job with
    | none => sys
    | some j =>
      { job := some (publishRun j sys.created t).1,
        created := (publishRun j sys.created t).2.1 }

/-- Run a list of operations in order. -/
def runOps (sys : Sys) (ops : List Op) : Sys := ops.foldl applyOp sys

/-- The report-count invariant: while no report row exists, none was
ever created; once one exists, exactly one creation happened. -/
def ReportInv (sys : Sys) : Prop :=
  match sys.job with
  | none => sys.created ≤ 1
  | some j => if j.hasReport then sys.created ≤ 1 else sys.created = 0

/-
  Concrete fixtures used by counterexamples and witnesses.
-/

/-- A job sitting in stage PUBLISH with two attempts already used. -/
def pubStageJob : JobRow :=
  { status := .queued, attempt := 2, stage := .PUBLISH,
    fetch := none, synthesis := some ⟨.mapReduce, 0, false⟩, hasReport := false }

/-- A job sitting in stage SYNTHESIZE with two attempts already used and
no markdown yet. -/
def synthStageJob : JobRow :=
  { status := .queued, attempt := 2, stage := .SYNTHESIZE,
    fetch := none, synthesis := none, hasReport := false }

/-- A step environment in which every dispatched stage throws before
performing any write, and the forced publish of the abort path throws
too. -/
def allThrowEnv : StepEnv :=
  { dBranch := .interestMissing, dThrow := .before,
    fEnv := ⟨[], 0, .before⟩, sEnv := ⟨0, true, true, true, true, .before⟩,
    pThrow := .before, forcedPubThrow := .before }

/-- A quiet step environment: nothing throws, discovery finds two
candidates, the fetch batch gets two of four sources, synthesis
validates first time. -/
def quietEnv : StepEnv :=
  { dBranch := .candidates 2, dThrow := .noThrow,
    fEnv := ⟨[true, true, false, false], 0, .noThrow⟩,
    sEnv := ⟨2, true, true, true, true, .noThrow⟩,
    pThrow := .noThrow, forcedPubThrow := .noThrow }

/-- The report of the C6 counterexample: every section the code bounds
is within bounds, but What Changed has a single non-fallback bullet and
Risks a single bullet. -/
def singleChangeReport : DeepDiveReportData :=
  { headline := "Quarterly capital rules update",
    whatHappened := ["alpha", "beta", "gamma"],
    whatChanged := ["one change"],
    whyItMatters := ["m1", "m2", "m3"],
    risks := ["one risk"],
    actionPrompts := ["p1", "p2", "p3"],
    sources := [⟨"title", "url", "name", none⟩] }

/-- A successful response whose body carries a paywall marker phrase and
whose extracted main text is 1300 characters long. -/
def markerDoc : FetchDoc :=
  { status := 200, finalUrl := "https://example.com/news/a",
    htmlBody := "Subscribe to continue reading",
    mainText := ⟨List.replicate 1300 'b'⟩,
    bodyText := "", title := none, sourceName := none }

/-- A 20001-character text with no space anywhere. -/
def noSpaceText : String := ⟨List.replicate 20001 'a'⟩

/-- A freshly created job as the scheduler writes it: queued, zero
attempts, stage DISCOVER. -/
def freshJob : JobRow :=
  { status := .queued, attempt := 0, stage := .DISCOVER,
    fetch := none, synthesis := none, hasReport := false }

/-
  Helper lemmas (shared; not claim theorems).
-/

/-- publishReport never changes the stage stored in the state document. -/
theorem publishRun_fst_stage (j : JobRow) (c : Nat) (t : PubThrow) :
    ((publishRun j c t).1).stage = j.stage := by
  unfold publishRun
  split <;> [rfl; skip]
  split <;> [rfl; skip]
  split <;> [rfl; skip]
  split <;> rfl

/-- A publishReport invocation that throws before any write. -/
theorem publishRun_before (j : JobRow) (c : Nat) :
    publishRun j c .before = (j, c, true) := by
  unfold publishRun
  rfl

/-- When a publishReport invocation on a job whose status is partial
returns without throwing, the final status is partial, complete or
failed. -/
theorem publishRun_final_status (j : JobRow) (c : Nat) (t : PubThrow)
    (h : ((publishRun j c t).2.2) = false) (hp : j.status = .partialS) :
    (publishRun j c t).1.status = .partialS ∨
    (publishRun j c t).1.status = .complete ∨
    (publishRun j c t).1.status = .failed := by
  by_cases hb : t = .before
  · rw [hb, publishRun_before] at h
    exact absurd h (by simp)
  · by_cases hr : j.hasReport
    · simp [publishRun, hb, hr]
    · by_cases hm : j.hasMarkdown
      · by_cases ha : t = .afterCreate
        · rw [ha] at h
          simp [publishRun, hb, hr, hm] at h
        · simp [publishRun, hb, hr, hm, ha, hp]
      · simp [publishRun, hb, hr, hm]

/-- Every stage rank is at most the rank of PUBLISH. -/
theorem Stage.rank_le_three (s : Stage) : s.rank ≤ 3 := by
  cases s <;> simp [Stage.rank]

/-- The stage written by a fetchAndExtractBatch invocation is the stage
read, FETCH, or SYNTHESIZE. -/
theorem fetchRun_stage (j : JobRow) (e : FetchEnv) :
    (fetchRun j e).1.stage = j.stage ∨ (fetchRun j e).1.stage = .FETCH ∨
    (fetchRun j e).1.stage = .SYNTHESIZE := by
  cases ht : e.throwAt <;>
    simp only [fetchRun, fetchDecision, ht] <;>
    first
    | simp
    | (split_ifs <;> simp)

/-- The stage written by a synthesizeReport invocation is the stage
read, SYNTHESIZE, or PUBLISH. -/
theorem synthesizeRun_stage (j : JobRow) (e : SynthEnv) :
    (synthesizeRun j e).1.stage = j.stage ∨ (synthesizeRun j e).1.stage = .SYNTHESIZE ∨
    (synthesizeRun j e).1.stage = .PUBLISH := by
  by_cases h0 : e.okSources = 0 <;>
    cases ht : e.throwAt <;>
    simp only [synthesizeRun, h0, ht, if_true, if_false] <;>
    first
    | (split <;> simp)
    | simp

/-- Dispatch never lowers the stage rank of the row it was handed. -/
theorem dispatchRun_stage_mono (j : JobRow) (c : Nat) (e : StepEnv) :
    j.stage.rank ≤ ((dispatchRun j c e).1).stage.rank := by
  cases hs : j.stage
  case DISCOVER =>
    simp only [dispatchRun, hs]
    exact Nat.zero_le _
  case FETCH =>
    simp only [dispatchRun, hs]
    rcases fetchRun_stage j e.fEnv with h | h | h <;>
      simp only [h, hs, Stage.rank] <;> omega
  case SYNTHESIZE =>
    simp only [dispatchRun, hs]
    rcases synthesizeRun_stage j e.sEnv with h | h | h <;>
      simp only [h, hs, Stage.rank] <;> omega
  case PUBLISH =>
    simp only [dispatchRun, hs]
    rw [publishRun_fst_stage, hs]

/-
  C1 — abort policy at the attempt ceiling.
-/

/-- C1, counterexample: a job already in stage PUBLISH whose dispatched
publish throws on the attempt that reaches the ceiling of 3 is NOT
force-published; the step leaves it with status running, contradicting
the claim that after such a step the status is never running and that
the force-publish applies to every stage including PUBLISH itself. -/
theorem c1_publish_stage_counterexample :
    pubStageJob.stage = Stage.PUBLISH ∧
    pubStageJob.attempt + 1 = MAX_ATTEMPTS ∧
    (deepDiveStep ⟨some pubStageJob, 0⟩ allThrowEnv).job =
      some { pubStageJob with attempt := 3, status := Status.running } := by
  refine ⟨rfl, rfl, ?_⟩
  decide

/-- C1 (amended): for every job whose dispatched stage throws during
deepDiveStep when the incremented attempt counter has reached the
ceiling of 3 AND whose state on re-read is not already in stage PUBLISH,
the step force-transitions the state to PUBLISH and immediately invokes
the Publisher with whatever partial data exists, so the job ends with
status partial, complete, or failed — failed in particular whenever that
forced publish itself throws before writing. A job already in stage
PUBLISH when it throws at the ceiling is left untouched with status
running (see the counterexample). -/
theorem c1_force_publish_at_ceiling (sys : Sys) (e : StepEnv) (j : JobRow)
    (hj : sys.job = some j)
    (hterm : j.status.isHardTerminal = false)
    (hceil : MAX_ATTEMPTS ≤ j.attempt + 1)
    (hthrew : (dispatchRun (runningRow j) sys.created e).2.2 = true)
    (hstage : (dispatchRun (runningRow j) sys.created e).1.stage ≠ Stage.PUBLISH) :
    ∃ j2, (deepDiveStep sys e).job = some j2 ∧ j2.stage = Stage.PUBLISH ∧
      (j2.status = Status.partialS ∨ j2.status = Status.complete ∨
        j2.status = Status.failed) ∧
      (e.forcedPubThrow = PubThrow.before → j2.status = Status.failed) := by
  have hstep : deepDiveStep sys e =
      (if (publishRun (forcePublishRow (dispatchRun (runningRow j) sys.created e).1)
            (dispatchRun (runningRow j) sys.created e).2.1 e.forcedPubThrow).2.2 then
        { job := some { (publishRun (forcePublishRow
              (dispatchRun (runningRow j) sys.created e).1)
            (dispatchRun (runningRow j) sys.created e).2.1 e.forcedPubThrow).1 with
              status := .failed },
          created := (publishRun (forcePublishRow
              (dispatchRun (runningRow j) sys.created e).1)
            (dispatchRun (runningRow j) sys.created e).2.1 e.forcedPubThrow).2.1 }
      else
        { job := some (publishRun (forcePublishRow
              (dispatchRun (runningRow j) sys.created e).1)
            (dispatchRun (runningRow j) sys.created e).2.1 e.forcedPubThrow).1,
          created := (publishRun (forcePublishRow
              (dispatchRun (runningRow j) sys.created e).1)
            (dispatchRun (runningRow j) sys.created e).2.1 e.forcedPubThrow).2.1 }) := by
    simp only [deepDiveStep, hj]
    rw [if_neg (by simp [hterm])]
    simp only [hthrew, Bool.not_true]
    rw [if_neg (by simp), if_pos hceil, if_pos hstage]
  by_cases hthr2 : (publishRun (forcePublishRow (dispatchRun (runningRow j) sys.created e).1)
      (dispatchRun (runningRow j) sys.created e).2.1 e.forcedPubThrow).2.2 = true
  · refine ⟨_, by rw [hstep, if_pos hthr2], ?_, Or.inr (Or.inr rfl), fun _ => rfl⟩
    show (publishRun _ _ _).1.stage = _
    rw [publishRun_fst_stage]
    rfl
  · have hthr2f : (publishRun (forcePublishRow (dispatchRun (runningRow j) sys.created e).1)
        (dispatchRun (runningRow j) sys.created e).2.1 e.forcedPubThrow).2.2 = false :=
      eq_false_of_ne_true hthr2
    refine ⟨_, by rw [hstep, if_neg hthr2], ?_, ?_, ?_⟩
    · rw [publishRun_fst_stage]
      rfl
    · exact publishRun_final_status _ _ _ hthr2f rfl
    · intro hfb
      rw [hfb, publishRun_before] at hthr2f
      exact absurd hthr2f (by simp)

/-- C1 witness: the amended theorem applied to a concrete SYNTHESIZE
stage job at the ceiling, with every throw point firing. -/
theorem c1_force_publish_at_ceiling_witness :
    ∃ j2, (deepDiveStep ⟨some synthStageJob, 0⟩ allThrowEnv).job = some j2 ∧
      j2.stage = Stage.PUBLISH ∧
      (j2.status = Status.partialS ∨ j2.status = Status.complete ∨
        j2.status = Status.failed) ∧
      (allThrowEnv.forcedPubThrow = PubThrow.before → j2.status = Status.failed) :=
  c1_force_publish_at_ceiling ⟨some synthStageJob, 0⟩ allThrowEnv synthStageJob rfl
    (by decide) (by decide) (by decide) (by decide)

/-
  C3 — monotone stage advancement.
-/

/-- C3: the persisted stage never regresses under the order DISCOVER <
FETCH < SYNTHESIZE < PUBLISH. One deepDiveStep invocation, whatever
branch the dispatched stage takes, whatever throw points fire and
whether or not the abort path runs, always leaves a job row whose stage
rank is at least the rank of the stage it read; by induction over any
sequence of step invocations the observed stage sequence is
non-decreasing, with skip-forward shortcuts allowed and skip-backward
impossible. -/
theorem c3_stage_monotone (sys : Sys) (e : StepEnv) (j : JobRow)
    (hj : sys.job = some j) :
    ∃ j2, (deepDiveStep sys e).job = some j2 ∧ j.stage.rank ≤ j2.stage.rank := by
  by_cases hterm : j.status.isHardTerminal = true
  · refine ⟨j, ?_, le_refl _⟩
    simp only [deepDiveStep, hj]
    rw [if_pos hterm]
    exact hj
  · have hterm' : j.status.isHardTerminal = false := eq_false_of_ne_true hterm
    have hmono : j.stage.rank ≤ ((dispatchRun (runningRow j) sys.created e).1).stage.rank :=
      dispatchRun_stage_mono (runningRow j) sys.created e
    simp only [deepDiveStep, hj]
    rw [if_neg (by simp [hterm'])]
    by_cases hthrew : (dispatchRun (runningRow j) sys.created e).2.2 = true
    · simp only [hthrew, Bool.not_true]
      rw [if_neg (by simp)]
      by_cases hceil : MAX_ATTEMPTS ≤ j.attempt + 1
      · rw [if_pos hceil]
        by_cases hstage : (dispatchRun (runningRow j) sys.created e).1.stage ≠ Stage.PUBLISH
        · rw [if_pos hstage]
          split
          · refine ⟨_, rfl, ?_⟩
            have : ((publishRun (forcePublishRow
                (dispatchRun (runningRow j) sys.created e).1)
                (dispatchRun (runningRow j) sys.created e).2.1 e.forcedPubThrow).1).stage =
                Stage.PUBLISH := by
              rw [publishRun_fst_stage]
              rfl
            show j.stage.rank ≤ ((publishRun (forcePublishRow
                (dispatchRun (runningRow j) sys.created e).1)
                (dispatchRun (runningRow j) sys.created e).2.1 e.forcedPubThrow).1).stage.rank
            rw [this]
            exact Stage.rank_le_three j.stage
          · refine ⟨_, rfl, ?_⟩
            have : ((publishRun (forcePublishRow
                (dispatchRun (runningRow j) sys.created e).1)
                (dispatchRun (runningRow j) sys.created e).2.1 e.forcedPubThrow).1).stage =
                Stage.PUBLISH := by
              rw [publishRun_fst_stage]
              rfl
            rw [this]
            exact Stage.rank_le_three j.stage
        · rw [if_neg hstage]
          exact ⟨_, rfl, hmono⟩
      · rw [if_neg hceil]
        exact ⟨_, rfl, hmono⟩
    · have hthrew' : (dispatchRun (runningRow j) sys.created e).2.2 = false :=
        eq_false_of_ne_true hthrew
      simp only [hthrew', Bool.not_false]
      rw [if_pos trivial]
      exact ⟨_, rfl, hmono⟩

/-- C3 witness: the monotonicity theorem applied to a fresh DISCOVER job
stepped in a quiet environment. -/
theorem c3_stage_monotone_witness :
    ∃ j2, (deepDiveStep ⟨some freshJob, 0⟩ quietEnv).job = some j2 ∧
      freshJob.stage.rank ≤ j2.stage.rank :=
  c3_stage_monotone ⟨some freshJob, 0⟩ quietEnv freshJob rfl

/-
  C2 — at most one report per job.
-/

/-- discoverCandidates never touches the report table. -/
theorem discoverRun_hasReport (j : JobRow) (b : DiscoverBranch) (t : ThrowPoint) :
    (discoverRun j b t).1.hasReport = j.hasReport := by
  cases b <;> cases t <;> rfl

/-- fetchAndExtractBatch never touches the report table. -/
theorem fetchRun_hasReport (j : JobRow) (e : FetchEnv) :
    (fetchRun j e).1.hasReport = j.hasReport := by
  cases ht : e.throwAt <;> simp only [fetchRun, fetchDecision, ht] <;>
    first
    | rfl
    | (split_ifs <;> rfl)

/-- synthesizeReport never touches the report table. -/
theorem synthesizeRun_hasReport (j : JobRow) (e : SynthEnv) :
    (synthesizeRun j e).1.hasReport = j.hasReport := by
  by_cases h0 : e.okSources = 0 <;>
    cases ht : e.throwAt <;>
    simp only [synthesizeRun, h0, ht, if_true, if_false] <;>
    first
    | (split <;> rfl)
    | rfl

/-- publishReport preserves the report-count invariant: it creates a row
only when none exists and no creation ever happened, and it marks the
row as existing when it does. -/
theorem publishRun_created (j : JobRow) (c : Nat) (t : PubThrow)
    (h : if j.hasReport then c ≤ 1 else c = 0) :
    (if (publishRun j c t).1.hasReport then (publishRun j c t).2.1 ≤ 1
     else (publishRun j c t).2.1 = 0) := by
  by_cases hb : t = .before
  · rw [hb, publishRun_before]
    exact h
  · by_cases hr : j.hasReport = true
    · simp only [hr, if_true] at h
      simp [publishRun, hb, hr, h]
    · have hr' : j.hasReport = false := eq_false_of_ne_true hr
      simp only [hr', Bool.false_eq_true, if_false] at h
      by_cases hm : j.hasMarkdown = true
      · by_cases ha : t = .afterCreate
        · simp [publishRun, hb, hr', hm, ha, h]
        · simp [publishRun, hb, hr', hm, ha, h]
      · have hm' : j.hasMarkdown = false := eq_false_of_ne_true hm
        simp [publishRun, hb, hr', hm', h]

/-- Dispatch preserves the report-count invariant whatever stage runs. -/
theorem dispatchRun_created (j : JobRow) (c : Nat) (e : StepEnv)
    (h : if j.hasReport then c ≤ 1 else c = 0) :
    (if (dispatchRun j c e).1.hasReport then (dispatchRun j c e).2.1 ≤ 1
     else (dispatchRun j c e).2.1 = 0) := by
  cases hs : j.stage
  case DISCOVER =>
    simp only [dispatchRun, hs, discoverRun_hasReport]
    exact h
  case FETCH =>
    simp only [dispatchRun, hs, fetchRun_hasReport]
    exact h
  case SYNTHESIZE =>
    simp only [dispatchRun, hs, synthesizeRun_hasReport]
    exact h
  case PUBLISH =>
    simp only [dispatchRun, hs]
    exact publishRun_created j c e.pThrow h

/-- One applied operation, step or standalone publish, preserves the
report-count invariant. -/
theorem applyOp_ReportInv (sys : Sys) (o : Op) (h : ReportInv sys) :
    ReportInv (applyOp sys o) := by
  cases hjob : sys.job
  case none =>
    cases o with
    | step e =>
      simp only [applyOp, deepDiveStep, hjob]
      simpa [ReportInv, hjob] using h
    | publish t =>
      simp only [applyOp, hjob]
      simpa [ReportInv, hjob] using h
  case some j =>
    have hj : (if j.hasReport then sys.created ≤ 1 else sys.created = 0) := by
      simpa [ReportInv, hjob] using h
    cases o with
    | publish t =>
      simp only [applyOp, hjob, ReportInv]
      exact publishRun_created j sys.created t hj
    | step e =>
      simp only [applyOp, deepDiveStep, hjob]
      by_cases hterm : j.status.isHardTerminal = true
      · rw [if_pos hterm]
        simpa [ReportInv, hjob] using h
      · rw [if_neg hterm]
        have hd := dispatchRun_created (runningRow j) sys.created e hj
        by_cases hthrew : (dispatchRun (runningRow j) sys.created e).2.2 = true
        · simp only [hthrew, Bool.not_true]
          rw [if_neg (by simp)]
          by_cases hceil : MAX_ATTEMPTS ≤ j.attempt + 1
          · rw [if_pos hceil]
            by_cases hstage : (dispatchRun (runningRow j) sys.created e).1.stage ≠ Stage.PUBLISH
            · rw [if_pos hstage]
              have hfp : (if (forcePublishRow (dispatchRun (runningRow j) sys.created e).1).hasReport
                  then (dispatchRun (runningRow j) sys.created e).2.1 ≤ 1
                  else (dispatchRun (runningRow j) sys.created e).2.1 = 0) := hd
              have hp := publishRun_created
                (forcePublishRow (dispatchRun (runningRow j) sys.created e).1)
                (dispatchRun (runningRow j) sys.created e).2.1 e.forcedPubThrow hfp
              split
              · simpa [ReportInv] using hp
              · simpa [ReportInv] using hp
            · rw [if_neg hstage]
              simpa [ReportInv] using hd
          · rw [if_neg hceil]
            simpa [ReportInv] using hd
        · have hthrew' : (dispatchRun (runningRow j) sys.created e).2.2 = false :=
            eq_false_of_ne_true hthrew
          simp only [hthrew', Bool.not_false]
          rw [if_pos trivial]
          simpa [ReportInv] using hd

/-- Any trace of operations preserves the report-count invariant. -/
theorem runOps_ReportInv (ops : List Op) (sys : Sys) (h : ReportInv sys) :
    ReportInv (runOps sys ops) := by
  induction ops generalizing sys with
  | nil => exact h
  | cons o os ih => exact ih (applyOp sys o) (applyOp_ReportInv sys o h)

/-- The report-count invariant bounds the creation count by one. -/
theorem ReportInv_created_le (sys : Sys) (h : ReportInv sys) : sys.created ≤ 1 := by
  cases hjob : sys.job with
  | none => simpa [ReportInv, hjob] using h
  | some j =>
    have hj : (if j.hasReport then sys.created ≤ 1 else sys.created = 0) := by
      simpa [ReportInv, hjob] using h
    by_cases hr : j.hasReport = true
    · simpa [hr] using hj
    · simp only [eq_false_of_ne_true hr, Bool.false_eq_true, if_false] at hj
      omega

/-- C2: at most one Report row is ever created per job, no matter how
many times step or publish is invoked: deepDiveStep on a missing job is
a no-op, deepDiveStep on a hard-terminal job is a no-op, publishReport
on a job that already has a report creates nothing and only forces the
status to complete, and over any trace of step and publish invocations
starting from a job without a report, the total number of report-row
creations is at most one. -/
theorem c2_at_most_one_report :
    (∀ c e, deepDiveStep ⟨none, c⟩ e = ⟨none, c⟩) ∧
    (∀ j c e, j.status.isHardTerminal = true → deepDiveStep ⟨some j, c⟩ e = ⟨some j, c⟩) ∧
    (∀ j c, j.hasReport = true →
      publishRun j c .noThrow = ({ j with status := Status.complete }, c, false)) ∧
    (∀ j ops, j.hasReport = false → (runOps ⟨some j, 0⟩ ops).created ≤ 1) := by
  refine ⟨?_, ?_, ?_, ?_⟩
  · intro c e
    simp [deepDiveStep]
  · intro j c e h
    simp [deepDiveStep, h]
  · intro j c h
    simp [publishRun, h]
  · intro j ops h
    have hinv : ReportInv ⟨some j, 0⟩ := by simp [ReportInv, h]
    exact ReportInv_created_le _ (runOps_ReportInv ops _ hinv)

/-- C2 witness: a fresh job stepped once and published twice creates at
most one report; the hard-terminal no-op and the already-published
no-op hold at concrete rows. -/
theorem c2_at_most_one_report_witness :
    (runOps ⟨some freshJob, 0⟩ [Op.step quietEnv, Op.publish .noThrow,
      Op.publish .noThrow]).created ≤ 1 ∧
    deepDiveStep ⟨some { freshJob with status := .complete }, 0⟩ quietEnv =
      ⟨some { freshJob with status := .complete }, 0⟩ :=
  ⟨c2_at_most_one_report.2.2.2 freshJob
      [Op.step quietEnv, Op.publish .noThrow, Op.publish .noThrow] rfl,
   c2_at_most_one_report.2.1 { freshJob with status := .complete } 0 quietEnv rfl⟩

/-
  C4 — the post-batch transition decision of fetchAndExtractBatch.
-/

/-- C4: after each FETCH batch the next state is decided exactly as the
claim states: at least 4 ok sources advance to SYNTHESIZE with the
deep-research strategy; otherwise remaining unknown sources keep the
job in FETCH with updated counters and cursor; otherwise at least 2 ok
sources advance to SYNTHESIZE (deep-research) marking the job partial;
otherwise the job advances to SYNTHESIZE with the map-reduce fallback
strategy, marked partial. The final conjunct ties the decision to the
state actually written by a batch that does not throw. -/
theorem c4_fetch_decision (j : JobRow) (ok fc rem : Nat) :
    (4 ≤ ok →
      fetchDecision j ok fc rem =
        { j with stage := .SYNTHESIZE,
                 fetch := some ⟨(j.fetch.map (·.totalSources)).getD 0, fc, ok, 0⟩,
                 synthesis := some ⟨.deepResearch, 0, false⟩ }) ∧
    (ok < 4 → 0 < rem →
      fetchDecision j ok fc rem =
        { j with stage := .FETCH,
                 fetch := some ⟨(j.fetch.map (·.totalSources)).getD 0, fc, ok, fc⟩,
                 synthesis := none }) ∧
    (ok < 4 → rem = 0 → 2 ≤ ok →
      fetchDecision j ok fc rem =
        { j with status := .partialS, stage := .SYNTHESIZE,
                 fetch := some ⟨(j.fetch.map (·.totalSources)).getD 0, fc, ok, 0⟩,
                 synthesis := some ⟨.deepResearch, 0, false⟩ }) ∧
    (ok < 4 → rem = 0 → ok < 2 →
      fetchDecision j ok fc rem =
        { j with status := .partialS, stage := .SYNTHESIZE,
                 fetch := some ⟨(j.fetch.map (·.totalSources)).getD 0, fc, ok, 0⟩,
                 synthesis := some ⟨.mapReduce, 0, false⟩ }) ∧
    (∀ e : FetchEnv, e.throwAt = .noThrow →
      fetchRun j e =
        (fetchDecision j ((j.fetch.map (·.okCount)).getD 0 + e.batchOk.count true)
          ((j.fetch.map (·.fetchedCount)).getD 0 + e.batchOk.length)
          e.remainingUnfetched, false)) := by
  refine ⟨?_, ?_, ?_, ?_, ?_⟩
  · intro h
    simp only [fetchDecision]
    rw [if_pos h]
  · intro h1 h2
    simp only [fetchDecision]
    rw [if_neg (by omega), if_pos h2]
  · intro h1 h2 h3
    simp only [fetchDecision]
    rw [if_neg (by omega), if_neg (by omega), if_pos h3]
  · intro h1 h2 h3
    simp only [fetchDecision]
    rw [if_neg (by omega), if_neg (by omega), if_neg (by omega)]
  · intro e he
    simp only [fetchRun, he]

/-- C4 witness: the decision theorem applied at concrete counter values
in each branch. -/
theorem c4_fetch_decision_witness :
    fetchDecision freshJob 4 8 0 =
      { freshJob with stage := .SYNTHESIZE, fetch := some ⟨0, 8, 4, 0⟩,
                      synthesis := some ⟨.deepResearch, 0, false⟩ } ∧
    fetchDecision freshJob 3 4 2 =
      { freshJob with stage := .FETCH, fetch := some ⟨0, 4, 3, 4⟩,
                      synthesis := none } ∧
    fetchDecision freshJob 2 8 0 =
      { freshJob with status := .partialS, stage := .SYNTHESIZE,
                      fetch := some ⟨0, 8, 2, 0⟩,
                      synthesis := some ⟨.deepResearch, 0, false⟩ } ∧
    fetchDecision freshJob 1 8 0 =
      { freshJob with status := .partialS, stage := .SYNTHESIZE,
                      fetch := some ⟨0, 8, 1, 0⟩,
                      synthesis := some ⟨.mapReduce, 0, false⟩ } :=
  ⟨(c4_fetch_decision freshJob 4 8 0).1 (by decide),
   (c4_fetch_decision freshJob 3 4 2).2.1 (by decide) (by decide),
   (c4_fetch_decision freshJob 2 8 0).2.2.1 (by decide) rfl (by decide),
   (c4_fetch_decision freshJob 1 8 0).2.2.2.1 (by decide) rfl (by decide)⟩

/-
  C5 — the synthesize validation gate and its one-shot retry.
-/

/-- C5, counterexample: with validity the identity on Bool, a first
candidate that fails validation and a retry output that passes, the gate
keeps the retry output — which is valid — yet still writes status
partial, because the status written by the final update only looks at
the FIRST validation verdict. This refutes the claim that the job is
marked partial only when the output actually kept is invalid. -/
theorem c5_counterexample :
    (synthesizeControl (fun b : Bool => b) false (some true) 0 true Status.running).kept
      = true ∧
    (synthesizeControl (fun b : Bool => b) false (some true) 0 true Status.running).strictRetries
      = 1 ∧
    (synthesizeControl (fun b : Bool => b) false (some true) 0 true Status.running).status
      = Status.partialS := by
  exact ⟨rfl, rfl, rfl⟩

/-- C5 (amended): whenever the first candidate fails validation on the
first attempt and budget remains, exactly one stricter direct retry is
made; the retry output replaces the original only if it independently
passes validation; but the job is marked partial exactly when the FIRST
candidate failed validation, even when the accepted retry output passes
validation and is the output kept. -/
theorem c5_retry_control (α : Type) (valid : α → Bool) (first : α) (retryOut : Option α)
    (retryCount : Nat) (budget : Bool) (prev : Status) :
    ((synthesizeControl valid first retryOut retryCount budget prev).strictRetries =
      if !valid first && retryCount = 0 && budget then 1 else 0) ∧
    ((synthesizeControl valid first retryOut retryCount budget prev).kept ≠ first →
      valid (synthesizeControl valid first retryOut retryCount budget prev).kept = true) ∧
    (valid first = true →
      (synthesizeControl valid first retryOut retryCount budget prev).status = prev) ∧
    (valid first = false →
      (synthesizeControl valid first retryOut retryCount budget prev).status =
        Status.partialS) := by
  refine ⟨rfl, ?_, ?_, ?_⟩
  · intro hne
    simp only [synthesizeControl] at hne ⊢
    by_cases hr : (!valid first && retryCount = 0 && budget) = true
    · rw [if_pos hr] at hne ⊢
      cases retryOut with
      | none => exact absurd rfl hne
      | some r =>
        by_cases hvr : valid r = true
        · simpa [hvr] using hvr
        · simp only [hvr, if_false, eq_false hvr] at hne
          exact absurd rfl hne
    · rw [if_neg hr] at hne ⊢
      exact absurd rfl hne
  · intro hv
    simp [synthesizeControl, hv]
  · intro hv
    simp [synthesizeControl, hv]

/-- C5 witness: the amended theorem applied at concrete inputs, one
with a failing first candidate and one with a passing one. -/
theorem c5_retry_control_witness :
    (synthesizeControl (fun b : Bool => b) false (some true) 0 true Status.running).status =
      Status.partialS ∧
    (synthesizeControl (fun b : Bool => b) true none 0 true Status.running).status =
      Status.running :=
  ⟨(c5_retry_control Bool (fun b => b) false (some true) 0 true Status.running).2.2.2 rfl,
   (c5_retry_control Bool (fun b => b) true none 0 true Status.running).2.2.1 rfl⟩

/-
  C6 — bullet-count bounds enforced by validateReport.
-/

/-- Emptiness of a concatenation. -/
theorem isEmpty_append_eq {α : Type} (a b : List α) :
    (a ++ b).isEmpty = (a.isEmpty && b.isEmpty) := by
  cases a <;> simp [List.isEmpty]

/-- C6, counterexample: a report whose What Changed section has a single
bullet that is not the fallback sentence and whose Risks section has a
single bullet passes validateReport, while the claim says any What
Changed count below 2 or Risks count below 2 must be invalid. The code
only checks these two sections for non-emptiness. -/
theorem c6_counterexample :
    (validateReport (fun _ => []) singleChangeReport []).valid = true ∧
    singleChangeReport.whatChanged.length = 1 ∧
    singleChangeReport.whatChanged ≠ ["No meaningful change identified."] ∧
    singleChangeReport.risks.length = 1 := by
  refine ⟨by decide, rfl, by decide, rfl⟩

/-- C6 (amended): validateReport enforces exactly these bullet bounds,
for every report, source list and entity extractor: What Happened must
have 3 to 6 bullets; Why It Matters exactly 3; Action Prompts exactly
3; What Changed and Risks / Watch-outs are only required to be
non-empty — their 2-to-4 bounds are not enforced. -/
theorem c6_validate_bullet_bounds (ext : DeepDiveReportData → List String)
    (r : DeepDiveReportData) (st : List String) :
    (r.whatHappened.length < 3 → (validateReport ext r st).valid = false) ∧
    (6 < r.whatHappened.length → (validateReport ext r st).valid = false) ∧
    (r.whatChanged = [] → (validateReport ext r st).valid = false) ∧
    (r.whyItMatters.length ≠ 3 → (validateReport ext r st).valid = false) ∧
    (r.risks = [] → (validateReport ext r st).valid = false) ∧
    (r.actionPrompts.length ≠ 3 → (validateReport ext r st).valid = false) := by
  refine ⟨?_, ?_, ?_, ?_, ?_, ?_⟩ <;> intro h <;>
    simp [validateReport, isEmpty_append_eq, h]

/-- C6 witness: the amended theorem applied to concrete reports that
each violate one of the enforced bounds. -/
theorem c6_validate_bullet_bounds_witness :
    (validateReport (fun _ => []) { singleChangeReport with whatChanged := [] } []).valid
      = false ∧
    (validateReport (fun _ => []) { singleChangeReport with whyItMatters := ["only"] } []).valid
      = false ∧
    (validateReport (fun _ => []) { singleChangeReport with whatHappened := ["a"] } []).valid
      = false :=
  ⟨(c6_validate_bullet_bounds (fun _ => [])
      { singleChangeReport with whatChanged := [] } []).2.2.1 rfl,
   (c6_validate_bullet_bounds (fun _ => [])
      { singleChangeReport with whyItMatters := ["only"] } []).2.2.2.1 (by decide),
   (c6_validate_bullet_bounds (fun _ => [])
      { singleChangeReport with whatHappened := ["a"] } []).1 (by decide)⟩

/-
  C7 — fetch classification and word-boundary truncation.
-/

/-- lastIdxOf finds nothing when the character does not occur. -/
theorem lastIdxOf_eq_none {c : Char} {l : List Char} (h : c ∉ l) :
    lastIdxOf c l = none := by
  induction l with
  | nil => rfl
  | cons a as ih =>
    have hne : ¬(a = c) := fun e => h (e ▸ List.mem_cons_self a as)
    have has : c ∉ as := fun hm => h (List.mem_cons_of_mem a hm)
    simp [lastIdxOf, ih has, hne]

/-- A found last index points at the character searched for. -/
theorem lastIdxOf_getElem {c : Char} {l : List Char} {i : Nat}
    (h : lastIdxOf c l = some i) : l[i]? = some c := by
  induction l generalizing i with
  | nil => simp [lastIdxOf] at h
  | cons a as ih =>
    simp only [lastIdxOf] at h
    cases hr : lastIdxOf c as with
    | some k =>
      rw [hr] at h
      injection h with h
      subst h
      rw [List.getElem?_cons_succ]
      exact ih hr
    | none =>
      rw [hr] at h
      by_cases ha : a = c
      · rw [if_pos ha] at h
        injection h with h
        subst h
        rw [List.getElem?_cons_zero, ha]
      · rw [if_neg ha] at h
        cases h

/-- Hard cut of truncateText when the text exceeds the cap and the cut
window has no space. -/
theorem truncateText_no_space (t : String) (m : Nat) (h : ¬(t.length ≤ m))
    (hn : lastIdxOf ' ' (t.data.take m) = none) :
    truncateText t m = ⟨t.data.take m⟩ := by
  unfold truncateText
  rw [if_neg h]
  simp only [hn]

/-- C7, counterexample: a successful (status 200) response whose body
carries the paywall marker phrase and whose extracted text is 1300
characters long is classified paywalled, where the claim enumeration
says ok; and truncating a 20001-character space-free text to the 20000
cap yields a hard mid-word cut of exactly 20000 characters whose
boundary character in the original is not a space, refuting the
parenthetical that for every input the truncated result ends at a word
boundary whenever the original exceeds the cap. -/
theorem c7_counterexample :
    (fetchSingleSource markerDoc = ⟨.paywalled, none, none, none⟩ ∧
      markerDoc.status = 200 ∧ 1200 ≤ markerDoc.mainText.length) ∧
    (storedExtractedText noSpaceText = ⟨List.replicate 20000 'a'⟩ ∧
      endsAtSpaceBoundary noSpaceText (storedExtractedText noSpaceText) = false) := by
  have hlen : markerDoc.mainText.length = 1300 := by
    show (List.replicate 1300 'b').length = 1300
    exact List.length_replicate 1300 'b'
  have hmem : (' ' : Char) ∉ List.replicate 20000 'a' := by
    intro hm
    rcases List.mem_replicate.1 hm with ⟨-, h⟩
    exact absurd h (by decide)
  have htake : noSpaceText.data.take 20000 = List.replicate 20000 'a' := by
    show (List.replicate 20001 'a').take 20000 = List.replicate 20000 'a'
    rw [List.take_replicate]
    norm_num
  have hlen2 : ¬(noSpaceText.length ≤ 20000) := by
    show ¬((List.replicate 20001 'a').length ≤ 20000)
    rw [List.length_replicate]
    omega
  have hn : lastIdxOf ' ' (noSpaceText.data.take 20000) = none := by
    rw [htake]
    exact lastIdxOf_eq_none hmem
  have htrunc : storedExtractedText noSpaceText = ⟨List.replicate 20000 'a'⟩ := by
    show truncateText noSpaceText 20000 = ⟨List.replicate 20000 'a'⟩
    rw [truncateText_no_space noSpaceText 20000 hlen2 hn, htake]
  refine ⟨⟨by decide, rfl, by rw [hlen]; omega⟩, htrunc, ?_⟩
  rw [htrunc]
  unfold endsAtSpaceBoundary
  have hres : (String.mk (List.replicate 20000 'a')).length = 20000 := by
    show (List.replicate 20000 'a').length = 20000
    exact List.length_replicate 20000 'a'
  rw [hres]
  have : noSpaceText.data[20000]? = some 'a' := by
    show (List.replicate 20001 'a')[20000]? = some 'a'
    rw [List.getElem?_replicate]
    norm_num
  rw [this]
  decide

/-- C7 (amended): fetchSingleSource classifies every response as
follows: HTTP 401 or 403 are paywalled; any other non-success status is
blocked; a successful response whose final URL contains a paywall path
fragment, or whose lowered body contains a paywall marker phrase, is
paywalled; otherwise extracted text (the selector text, or the
whole-body text when the selector text is short) below 1200 characters
is blocked, and at least 1200 characters is ok. The stored text is
truncateText(text, 20000): never longer than 20000 characters, the
identity when the text fits the cap, and cut back to just before the
last space of the 20000-character cut only when that space lies
strictly past 80 percent of the cap — otherwise the cut may split a
word. -/
theorem c7_fetch_classification (d : FetchDoc) :
    (d.status = 401 ∨ d.status = 403 →
      fetchSingleSource d = ⟨.paywalled, none, none, none⟩) ∧
    (¬(200 ≤ d.status ∧ d.status ≤ 299) → d.status ≠ 401 → d.status ≠ 403 →
      fetchSingleSource d = ⟨.blocked, none, none, none⟩) ∧
    (200 ≤ d.status ∧ d.status ≤ 299 →
      (PAYWALL_URL_PATTERNS.any (fun p => containsStr d.finalUrl p) = true ∨
        PAYWALL_MARKERS.any (fun m => containsStr (asciiLower d.htmlBody) m) = true) →
      (fetchSingleSource d).status = .paywalled) ∧
    (200 ≤ d.status ∧ d.status ≤ 299 →
      PAYWALL_URL_PATTERNS.any (fun p => containsStr d.finalUrl p) = false →
      PAYWALL_MARKERS.any (fun m => containsStr (asciiLower d.htmlBody) m) = false →
      (if d.mainText.length < MIN_READABLE_CHARS then d.bodyText
        else d.mainText).length < MIN_READABLE_CHARS →
      fetchSingleSource d = ⟨.blocked, none, d.title, none⟩) ∧
    (200 ≤ d.status ∧ d.status ≤ 299 →
      PAYWALL_URL_PATTERNS.any (fun p => containsStr d.finalUrl p) = false →
      PAYWALL_MARKERS.any (fun m => containsStr (asciiLower d.htmlBody) m) = false →
      MIN_READABLE_CHARS ≤ (if d.mainText.length < MIN_READABLE_CHARS then d.bodyText
        else d.mainText).length →
      fetchSingleSource d =
        ⟨.ok, some (if d.mainText.length < MIN_READABLE_CHARS then d.bodyText
          else d.mainText), d.title, d.sourceName⟩) ∧
    (∀ t : String, (storedExtractedText t).length ≤ MAX_EXTRACTED_TEXT) ∧
    (∀ t : String, t.length ≤ MAX_EXTRACTED_TEXT → storedExtractedText t = t) ∧
    (∀ (t : String) (i : Nat), MAX_EXTRACTED_TEXT < t.length →
      lastIdxOf ' ' (t.data.take MAX_EXTRACTED_TEXT) = some i →
      MAX_EXTRACTED_TEXT * 4 < i * 5 →
      storedExtractedText t = ⟨(t.data.take MAX_EXTRACTED_TEXT).take i⟩ ∧
        t.data[i]? = some ' ') := by
  refine ⟨?_, ?_, ?_, ?_, ?_, ?_, ?_, ?_⟩
  · rintro (h | h) <;> simp [fetchSingleSource, h]
  · intro hns h1 h3
    have : ¬(200 ≤ d.status ∧ d.status ≤ 299) := hns
    simp [fetchSingleSource, h1, h3, this]
  · rintro h12 (hu | hm)
    · have h1 : d.status ≠ 401 := by omega
      have h3 : d.status ≠ 403 := by omega
      simp [fetchSingleSource, h1, h3, h12.1, h12.2, hu]
    · have h1 : d.status ≠ 401 := by omega
      have h3 : d.status ≠ 403 := by omega
      by_cases hu : PAYWALL_URL_PATTERNS.any (fun p => containsStr d.finalUrl p) = true
      · simp [fetchSingleSource, h1, h3, h12.1, h12.2, hu]
      · simp [fetchSingleSource, h1, h3, h12.1, h12.2, hu, hm]
  · intro h12 hu hm hlen
    have h1 : d.status ≠ 401 := by omega
    have h3 : d.status ≠ 403 := by omega
    simp [fetchSingleSource, h1, h3, h12.1, h12.2, hu, hm, hlen]
  · intro h12 hu hm hlen
    have h1 : d.status ≠ 401 := by omega
    have h3 : d.status ≠ 403 := by omega
    have hlt : ¬((if d.mainText.length < MIN_READABLE_CHARS then d.bodyText
        else d.mainText).length < MIN_READABLE_CHARS) := by omega
    simp [fetchSingleSource, h1, h3, h12.1, h12.2, hu, hm, hlt]
  · intro t
    unfold storedExtractedText truncateText
    by_cases hl : t.length ≤ MAX_EXTRACTED_TEXT
    · rw [if_pos hl]
      exact hl
    · rw [if_neg hl]
      cases hidx : lastIdxOf ' ' (t.data.take MAX_EXTRACTED_TEXT) with
      | none =>
        simp only [hidx]
        exact List.length_take_le _ _
      | some i =>
        simp only [hidx]
        by_cases hb : MAX_EXTRACTED_TEXT * 4 < i * 5
        · rw [if_pos hb]
          calc ((t.data.take MAX_EXTRACTED_TEXT).take i).length
              ≤ (t.data.take MAX_EXTRACTED_TEXT).length := by
                rw [List.length_take, List.length_take]
                omega
            _ ≤ MAX_EXTRACTED_TEXT := List.length_take_le _ _
        · rw [if_neg hb]
          exact List.length_take_le _ _
  · intro t h
    unfold storedExtractedText truncateText
    rw [if_pos h]
  · intro t i hlen hidx hb
    have hget : (t.data.take MAX_EXTRACTED_TEXT)[i]? = some ' ' := lastIdxOf_getElem hidx
    rw [List.getElem?_take] at hget
    constructor
    · unfold storedExtractedText truncateText
      rw [if_neg (by omega)]
      simp only [hidx]
      rw [if_pos hb]
    · by_cases hi : i < MAX_EXTRACTED_TEXT
      · rwa [if_pos hi] at hget
      · rw [if_neg hi] at hget
        cases hget

/-- C7 witness: the amended classification applied at concrete
responses, and the truncation clauses at concrete texts. -/
theorem c7_fetch_classification_witness :
    fetchSingleSource { markerDoc with status := 403 } = ⟨.paywalled, none, none, none⟩ ∧
    fetchSingleSource { markerDoc with status := 500 } = ⟨.blocked, none, none, none⟩ ∧
    storedExtractedText "short text" = "short text" :=
  ⟨(c7_fetch_classification { markerDoc with status := 403 }).1 (Or.inr rfl),
   (c7_fetch_classification { markerDoc with status := 500 }).2.1 (by decide) (by decide)
     (by decide),
   (c7_fetch_classification markerDoc).2.2.2.2.2.2.1 "short text" (by decide)⟩

/-
  C8 — at most one job per (user, period).
-/

/-- One pass of the scheduler loop body keeps every key count at most
one: it inserts a key only after the existence check failed, i.e. only
when the key count was zero. -/
theorem scheduleUser_count (db : List JobKey) (u : SchedUser) (k : JobKey)
    (h : db.count k ≤ 1) : (scheduleUser db u).count k ≤ 1 := by
  unfold scheduleUser
  split_ifs with h1 h2 h3 h4
  any_goals exact h
  rw [List.count_cons]
  by_cases hk : ((u.uid, u.week) == k) = true
  · have hkeq : (u.uid, u.week) = k := eq_of_beq hk
    have hz : List.count k db = 0 := List.count_eq_zero.2 (by rw [← hkeq]; exact h3)
    rw [if_pos hk, hz]
  · rw [if_neg hk]
    omega

/-- One scheduleDeepDives invocation keeps every key count at most one. -/
theorem scheduleDeepDives_count (configs : List SchedUser) (db : List JobKey)
    (k : JobKey) (h : db.count k ≤ 1) :
    (scheduleDeepDives db configs).count k ≤ 1 := by
  induction configs generalizing db with
  | nil => exact h
  | cons u us ih => exact ih _ (scheduleUser_count db u k h)

/-- C8: for every user and run week the scheduler creates at most one
job: scheduleDeepDives checks for an existing job keyed (userId,
runWeek) and skips creation when one exists, so any number of
invocations over any configurations, starting from a store holding at
most one job for that key, leave at most one deepDiveJob row with that
key. -/
theorem c8_one_job_per_user_week (runs : List (List SchedUser)) (db : List JobKey)
    (k : JobKey) (h : db.count k ≤ 1) :
    (runs.foldl scheduleDeepDives db).count k ≤ 1 := by
  induction runs generalizing db with
  | nil => exact h
  | cons r rs ih => exact ih _ (scheduleDeepDives_count r db k h)

/-- C8 witness: three scheduling attempts for the same user and week,
across two invocations, leave at most one row. -/
theorem c8_one_job_per_user_week_witness :
    (([[⟨1, 5, true, true, true⟩, ⟨1, 5, true, true, true⟩],
       [⟨1, 5, true, true, true⟩]] : List (List SchedUser)).foldl
      scheduleDeepDives []).count (1, 5) ≤ 1 :=
  c8_one_job_per_user_week
    [[⟨1, 5, true, true, true⟩, ⟨1, 5, true, true, true⟩], [⟨1, 5, true, true, true⟩]]
    [] (1, 5) (by decide)

/-
  C9 — the zero-source minimal report.
-/

/-- C9: whenever synthesis runs with zero ok sources, synthesizeReport
takes the createMinimalReport path: no generation-service call is made,
the job is written with status partial and stage PUBLISH, the synthesis
marker is map-reduce with retryCount 0 and markdown present, and the
markdown stored into state.synthesis.partialMarkdown is the fixed
no-coverage report, whose text contains the substring No Coverage
Available. The last two conjuncts record the discovery shortcut that
feeds this path: zero candidates skip straight to SYNTHESIZE marked
partial. -/
theorem c9_zero_sources_minimal (j : JobRow) (e : SynthEnv) (label : String) (n : Nat)
    (h0 : e.okSources = 0) (ht : e.throwAt = .noThrow) :
    (synthesizeRun j e).1 = (createMinimalReport j label).1 ∧
    (synthesizeRun j e).2 = false ∧
    (synthesizeRun j e).1.status = Status.partialS ∧
    (synthesizeRun j e).1.stage = Stage.PUBLISH ∧
    (synthesizeRun j e).1.synthesis = some ⟨Strategy.mapReduce, 0, true⟩ ∧
    (createMinimalReport j label).2 = minimalReportMarkdown label ∧
    "No Coverage Available".data <:+: (minimalReportMarkdown label).data ∧
    synthesizeModelCalls e n = 0 ∧
    (discoverRun j .noCandidates .noThrow).1.stage = Stage.SYNTHESIZE ∧
    (discoverRun j .noCandidates .noThrow).1.status = Status.partialS := by
  have hz : synthesizeRun j e =
      ({ j with status := .partialS, stage := .PUBLISH,
                synthesis := some ⟨.mapReduce, 0, true⟩ }, false) := by
    unfold synthesizeRun
    rw [if_pos h0]
    simp only [ht]
  refine ⟨by rw [hz]; rfl, by rw [hz], by rw [hz], by rw [hz], by rw [hz], rfl, ?_,
    by simp [synthesizeModelCalls, h0], rfl, rfl⟩
  refine ⟨("# " ++ label ++ " — ").data, minimalReportBody.data, ?_⟩
  show ("# " ++ label ++ " — ").data ++ "No Coverage Available".data ++
      minimalReportBody.data = (minimalReportMarkdown label).data
  simp [minimalReportMarkdown, String.data_append, List.append_assoc]

/-- C9 witness: the zero-source theorem applied to a concrete job and
environment. -/
theorem c9_zero_sources_minimal_witness :
    (synthesizeRun synthStageJob ⟨0, true, true, true, true, .noThrow⟩).1.status =
      Status.partialS ∧
    "No Coverage Available".data <:+: (minimalReportMarkdown "Topic").data :=
  ⟨(c9_zero_sources_minimal synthStageJob ⟨0, true, true, true, true, .noThrow⟩
      "Topic" 0 rfl rfl).2.2.1,
   (c9_zero_sources_minimal synthStageJob ⟨0, true, true, true, true, .noThrow⟩
      "Topic" 0 rfl rfl).2.2.2.2.2.2.1⟩

/-
  C10 — totality of the state decoder.
-/

/-- C10: decoding the persisted state document is total: fromJson never
fails, substituting the default DISCOVER document for a missing or null
stored value and passing every other stored value through unchanged
with no validation; consequently the orchestrator switch on a job
whose state document was never written reads stage DISCOVER and
dispatches to the DISCOVER stage rather than erroring. -/
theorem c10_fromJson_total :
    fromJson none = defaultDeepDiveState ∧
    fromJson (some Json.null) = defaultDeepDiveState ∧
    (∀ j : Json, j ≠ Json.null → fromJson (some j) = j) ∧
    dispatchTarget (fromJson none) = some Stage.DISCOVER ∧
    dispatchTarget (fromJson (some Json.null)) = some Stage.DISCOVER := by
  refine ⟨rfl, rfl, ?_, rfl, rfl⟩
  intro j hj
  cases j <;> first | rfl | exact absurd rfl hj

/-- C10 witness: a non-null stored document passes through unchanged. -/
theorem c10_fromJson_total_witness :
    fromJson (some (Json.str "x")) = Json.str "x" :=
  c10_fromJson_total.2.2.1 (Json.str "x") (fun h => Json.noConfusion h)

end CroweDD
